import Mathlib

/-!
Verification of the command-execution core of the `vesper` repository
(file `src/zephyrus/src/command.rs`): the `Command` definition and builder,
`run_checks`, and the `execute` state machine.

The asynchronous hooks of the Rust code (checks, the entry point, the error
handler) are shallowly embedded as pure functions giving the awaited value;
the engine additionally returns an explicit trace of hook invocations, in
invocation order, so that claims of the form "the hook is invoked exactly
once / never invoked" become statements about the trace.
-/

namespace Vesper

/-- Shallow embedding of Rust `Result<T, E>`. -/
inductive RResult (T E : Type) where
  | ok (value : T)
  | err (error : E)
deriving DecidableEq, Repr

/-- Embedding of `ExecutionState` (command.rs lines 16-27): the execution
state of a command. -/
inductive ExecutionState where
  | CheckErrored
  | CheckFailed
  | CommandFinished
  | CommandErrored
  | BeforeHookFailed
deriving DecidableEq, Repr

/-- Embedding of `OutputLocation<T, E>` (command.rs lines 31-40): the
location of the output of the command. -/
inductive OutputLocation (T E : Type) where
  | NotExecuted
  | Present (r : RResult T E)
  | TakenByAfterHook
  | TakenByErrorHandlerHook
deriving DecidableEq, Repr

/-- Embedding of `ExecutionResult<T, E>` (command.rs lines 43-48). -/
structure ExecutionResult (T E : Type) where
  state : ExecutionState
  output : OutputLocation T E
deriving DecidableEq, Repr

/-- Modelled from the spec: the per-invocation `SlashContext` handle is
opaque to this core (src `context.rs` is not provided); it carries the
shared application data, which is all the embedding needs. -/
structure SlashContext (D : Type) where
  data : D

/-- Modelled from the spec: an argument descriptor (src `argument.rs` is
not provided); the core only stores these in an ordered sequence, so the
payload is irrelevant here. -/
structure CommandArgument (D : Type) where
  name : String

/-- Modelled from the spec: the `Permissions` bitset of the external
`twilight` crate, "optional bitset" in the spec's words. -/
structure Permissions where
  bits : Nat
deriving DecidableEq, Repr

/-- Modelled from the spec: `CheckHook` (src `hook.rs` is not provided) is
a tuple struct wrapping a guard function from Context to `Result<bool, E>`;
`command.rs` invokes it as `(check.0)(context).await`.  The field `hook`
plays the role of the Rust `.0` projection, yielding the awaited value. -/
structure CheckHook (D E : Type) where
  hook : SlashContext D → RResult Bool E

/-- Modelled from the spec: `ErrorHandlerHook` (src `hook.rs` is not
provided) wraps a hook taking the Context and a failure value, with no
meaningful return value; `command.rs` invokes it as
`(hook.0)(context, why).await`. -/
structure ErrorHandlerHook (D E : Type) where
  hook : SlashContext D → E → Unit

/-- Embedding of `Command<D, T, E>` (command.rs lines 57-70).  The Rust
field `fun` is a Lean keyword and is rendered `entry_point` here (the
spec's name for it). -/
structure Command (D T E : Type) where
  name : String
  description : String
  arguments : List (CommandArgument D)
  entry_point : SlashContext D → RResult T E
  required_permissions : Option Permissions
  checks : List (CheckHook D E)
  error_handler : Option (ErrorHandlerHook D E)

/-- One observable hook invocation performed by the engine:
`checkInvoked k` records that the check at 0-based index `k` was invoked,
`entryInvoked` that the entry point was invoked, and `handlerInvoked why`
that the error handler was invoked with the Context and failure value
`why`. -/
inductive Event (E : Type) where
  | checkInvoked (index : Nat)
  | entryInvoked
  | handlerInvoked (why : E)
deriving DecidableEq, Repr

/-- The failure values the error handler was invoked with, in order. -/
def handlerEvents {E : Type} (tr : List (Event E)) : List E :=
  tr.filterMap fun ev =>
    match ev with
    | .handlerInvoked why => some why
    | _ => none

/-- How many times the entry point was invoked. -/
def entryCount {E : Type} (tr : List (Event E)) : Nat :=
  (tr.filter fun ev =>
    match ev with
    | .entryInvoked => true
    | _ => false).length

/-- The 0-based indices of the checks that were invoked, in order. -/
def checkEvents {E : Type} (tr : List (Event E)) : List Nat :=
  tr.filterMap fun ev =>
    match ev with
    | .checkInvoked k => some k
    | _ => none

variable {D T E : Type}

/-- Embedding of `Command::new` (command.rs lines 74-84): every field other
than the function pointer takes its `Default::default()` value, which is
the empty string for `name` and `description`, the empty vector for
`arguments` and `checks`, and `None` for the options. -/
def Command.new (f : SlashContext D → RResult T E) : Command D T E :=
  { name := ""
    description := ""
    arguments := []
    entry_point := f
    required_permissions := none
    checks := []
    error_handler := none }

/-- Embedding of the builder method `Command::name` (command.rs 87-90);
renamed because the Lean field projection already uses the name. -/
def Command.set_name (cmd : Command D T E) (name : String) : Command D T E :=
  { cmd with name := name }

/-- Embedding of the builder method `Command::description` (command.rs
93-96). -/
def Command.set_description (cmd : Command D T E) (description : String) :
    Command D T E :=
  { cmd with description := description }

/-- Embedding of `Command::add_argument` (command.rs 99-102): pushes the
argument at the end of the vector. -/
def Command.add_argument (cmd : Command D T E) (arg : CommandArgument D) :
    Command D T E :=
  { cmd with arguments := cmd.arguments ++ [arg] }

/-- Embedding of the builder method `Command::checks` (command.rs 104-107):
replaces the whole check list. -/
def Command.set_checks (cmd : Command D T E) (checks : List (CheckHook D E)) :
    Command D T E :=
  { cmd with checks := checks }

/-- Embedding of the builder method `Command::error_handler` (command.rs
109-112): stores `Some(hook)`, overwriting any previous handler. -/
def Command.set_error_handler (cmd : Command D T E)
    (hook : ErrorHandlerHook D E) : Command D T E :=
  { cmd with error_handler := some hook }

/-- Embedding of the builder method `Command::required_permissions`
(command.rs 114-117): stores `Some(permissions)`. -/
def Command.set_required_permissions (cmd : Command D T E)
    (permissions : Permissions) : Command D T E :=
  { cmd with required_permissions := some permissions }

/-- The loop of `Command::run_checks` (command.rs 121-126), with the
0-based index of the next check threaded through so that the trace can
name the invoked checks: `if !(check.0)(context).await? { return Ok(false) }`
iterated over the list.  The returned trace lists the invoked checks in
invocation order. -/
def runChecksFrom (ctx : SlashContext D) :
    List (CheckHook D E) → Nat → RResult Bool E × List (Event E)
  | [], _ => (.ok true, [])
  | check :: rest, k =>
    match check.hook ctx with
    | .err e => (.err e, [.checkInvoked k])
    | .ok false => (.ok false, [.checkInvoked k])
    | .ok true =>
      let r := runChecksFrom ctx rest (k + 1)
      (r.1, .checkInvoked k :: r.2)

/-- Embedding of `Command::run_checks` (command.rs 119-129), paired with
the trace of check invocations. -/
def Command.run_checks (cmd : Command D T E) (ctx : SlashContext D) :
    RResult Bool E × List (Event E) :=
  runChecksFrom ctx cmd.checks 0

/-- Embedding of `Command::execute` (command.rs 131-182), paired with the
trace of hook invocations in invocation order.  The three arms of the
inner `match (&self.error_handler, output)` and the three arms of the
outer `match self.run_checks(context).await` are kept in source order; the
error handler's return value (`Unit`) is discarded exactly as the Rust
code discards the awaited hook future. -/
def Command.execute (cmd : Command D T E) (ctx : SlashContext D) :
    ExecutionResult T E × List (Event E) :=
  match cmd.run_checks ctx with
  | (.ok true, tr) =>
    let output := cmd.entry_point ctx
    match cmd.error_handler, output with
    | some hook, .err why =>
      let _ := hook.hook ctx why
      ({ state := .CommandErrored, output := .TakenByErrorHandlerHook },
        tr ++ [.entryInvoked, .handlerInvoked why])
    | _, .ok res =>
      ({ state := .CommandFinished, output := .Present (.ok res) },
        tr ++ [.entryInvoked])
    | _, .err res =>
      ({ state := .CommandErrored, output := .Present (.err res) },
        tr ++ [.entryInvoked])
  | (.err why, tr) =>
    match cmd.error_handler with
    | some hook =>
      let _ := hook.hook ctx why
      ({ state := .CheckErrored, output := .TakenByErrorHandlerHook },
        tr ++ [.handlerInvoked why])
    | none =>
      ({ state := .CheckErrored, output := .Present (.err why) }, tr)
  | (.ok false, tr) =>
    ({ state := .CheckFailed, output := .NotExecuted }, tr)

/-- The `Result` value produced during one execution, if any: the check
error when the checks hard-fail, nothing when they soft-fail, and the
entry point's value when they pass.  Used to state the spec's consumption
invariant. -/
def Command.producedValue (cmd : Command D T E) (ctx : SlashContext D) :
    Option (RResult T E) :=
  match (cmd.run_checks ctx).1 with
  | .err why => some (.err why)
  | .ok false => none
  | .ok true => some (cmd.entry_point ctx)

/-! ### Helper lemmas about traces -/

theorem handlerEvents_append (tr tr' : List (Event E)) :
    handlerEvents (tr ++ tr') = handlerEvents tr ++ handlerEvents tr' :=
  List.filterMap_append tr tr' _

theorem entryCount_append (tr tr' : List (Event E)) :
    entryCount (tr ++ tr') = entryCount tr + entryCount tr' := by
  simp [entryCount, List.filter_append]

/-- A check-running trace contains only check invocations: the error
handler never fires inside `run_checks` and the entry point is never
invoked there. -/
theorem runChecksFrom_trace_pure (ctx : SlashContext D)
    (cs : List (CheckHook D E)) (k : Nat) :
    handlerEvents (runChecksFrom ctx cs k).2 = [] ∧
      entryCount (runChecksFrom ctx cs k).2 = 0 := by
  induction cs generalizing k with
  | nil => simp [runChecksFrom, handlerEvents, entryCount]
  | cons c rest ih =>
    rcases h : c.hook ctx with b | e
    · cases b
      · simp [runChecksFrom, h, handlerEvents, entryCount]
      · have hr := ih (k + 1)
        simp only [runChecksFrom, h, handlerEvents, entryCount,
          List.filterMap_cons, List.filter_cons, List.length_cons] at hr ⊢
        exact hr
    · simp [runChecksFrom, h, handlerEvents, entryCount]

theorem run_checks_handlerEvents (cmd : Command D T E) (ctx : SlashContext D) :
    handlerEvents (cmd.run_checks ctx).2 = [] :=
  (runChecksFrom_trace_pure ctx cmd.checks 0).1

theorem run_checks_entryCount (cmd : Command D T E) (ctx : SlashContext D) :
    entryCount (cmd.run_checks ctx).2 = 0 :=
  (runChecksFrom_trace_pure ctx cmd.checks 0).2

/-! ### Characterization of `execute` branch by branch -/

theorem execute_of_checks_false (cmd : Command D T E) (ctx : SlashContext D)
    (tr : List (Event E)) (h : cmd.run_checks ctx = (.ok false, tr)) :
    cmd.execute ctx = ({ state := .CheckFailed, output := .NotExecuted }, tr) := by
  simp [Command.execute, h]

theorem execute_of_checks_err_some (cmd : Command D T E) (ctx : SlashContext D)
    (why : E) (tr : List (Event E)) (hook : ErrorHandlerHook D E)
    (h : cmd.run_checks ctx = (.err why, tr))
    (hh : cmd.error_handler = some hook) :
    cmd.execute ctx =
      ({ state := .CheckErrored, output := .TakenByErrorHandlerHook },
        tr ++ [.handlerInvoked why]) := by
  simp [Command.execute, h, hh]

theorem execute_of_checks_err_none (cmd : Command D T E) (ctx : SlashContext D)
    (why : E) (tr : List (Event E))
    (h : cmd.run_checks ctx = (.err why, tr))
    (hh : cmd.error_handler = none) :
    cmd.execute ctx =
      ({ state := .CheckErrored, output := .Present (.err why) }, tr) := by
  simp [Command.execute, h, hh]

theorem execute_of_checks_true_ok (cmd : Command D T E) (ctx : SlashContext D)
    (v : T) (tr : List (Event E))
    (h : cmd.run_checks ctx = (.ok true, tr))
    (he : cmd.entry_point ctx = .ok v) :
    cmd.execute ctx =
      ({ state := .CommandFinished, output := .Present (.ok v) },
        tr ++ [.entryInvoked]) := by
  cases hh : cmd.error_handler <;> simp [Command.execute, h, he, hh]

theorem execute_of_checks_true_err_some (cmd : Command D T E)
    (ctx : SlashContext D) (why : E) (tr : List (Event E))
    (hook : ErrorHandlerHook D E)
    (h : cmd.run_checks ctx = (.ok true, tr))
    (he : cmd.entry_point ctx = .err why)
    (hh : cmd.error_handler = some hook) :
    cmd.execute ctx =
      ({ state := .CommandErrored, output := .TakenByErrorHandlerHook },
        tr ++ [.entryInvoked, .handlerInvoked why]) := by
  simp [Command.execute, h, he, hh]

theorem execute_of_checks_true_err_none (cmd : Command D T E)
    (ctx : SlashContext D) (why : E) (tr : List (Event E))
    (h : cmd.run_checks ctx = (.ok true, tr))
    (he : cmd.entry_point ctx = .err why)
    (hh : cmd.error_handler = none) :
    cmd.execute ctx =
      ({ state := .CommandErrored, output := .Present (.err why) },
        tr ++ [.entryInvoked]) := by
  simp [Command.execute, h, he, hh]

/-! ### Concrete fixtures for witnesses and counterexamples -/

/-- Concrete context used by the witnesses. -/
def wctx : SlashContext Nat := ⟨0⟩

/-- A check that passes. -/
def checkTrue : CheckHook Nat String := ⟨fun _ => .ok true⟩

/-- A check that soft-fails. -/
def checkFalse : CheckHook Nat String := ⟨fun _ => .ok false⟩

/-- A check that hard-fails. -/
def checkErr : CheckHook Nat String := ⟨fun _ => .err "rate-limited"⟩

/-- A concrete error handler. -/
def wHandler : ErrorHandlerHook Nat String := ⟨fun _ _ => ()⟩

/-- An entry point that succeeds with 42. -/
def entryOk : SlashContext Nat → RResult Nat String := fun _ => .ok 42

/-- An entry point that fails. -/
def entryErr : SlashContext Nat → RResult Nat String := fun _ => .err "db-timeout"

/-! ### Claim theorems -/

/-- C1: if every check returns `Ok(true)` and the entry point returns
`Err(why)`, then `execute` returns `state = CommandErrored`, and exactly
one of the following holds: the error handler is configured, is invoked
exactly once with the Context and `why`, and
`output = TakenByErrorHandlerHook`; or no error handler is configured, the
handler is never invoked, and `output = Present(Err(why))` — never both,
never neither. -/
theorem execute_entry_err_exactly_one_consumer (cmd : Command D T E)
    (ctx : SlashContext D) (why : E)
    (hc : (cmd.run_checks ctx).1 = .ok true)
    (he : cmd.entry_point ctx = .err why) :
    (cmd.execute ctx).1.state = .CommandErrored ∧
    Xor'
      (cmd.error_handler.isSome = true ∧
        handlerEvents (cmd.execute ctx).2 = [why] ∧
        (cmd.execute ctx).1.output = .TakenByErrorHandlerHook)
      (cmd.error_handler = none ∧
        handlerEvents (cmd.execute ctx).2 = [] ∧
        (cmd.execute ctx).1.output = .Present (.err why)) := by
  rcases hrc : cmd.run_checks ctx with ⟨r, tr⟩
  rw [hrc] at hc
  dsimp at hc
  subst hc
  have htr : handlerEvents tr = [] := by
    have h0 := run_checks_handlerEvents cmd ctx
    rw [hrc] at h0; exact h0
  cases hh : cmd.error_handler with
  | some hook =>
    rw [execute_of_checks_true_err_some cmd ctx why tr hook hrc he hh]
    refine ⟨rfl, Or.inl ⟨⟨rfl, ?_, rfl⟩, ?_⟩⟩
    · rw [handlerEvents_append, htr]; rfl
    · rintro ⟨hn, -, -⟩
      exact Option.noConfusion hn
  | none =>
    rw [execute_of_checks_true_err_none cmd ctx why tr hrc he hh]
    refine ⟨rfl, Or.inr ⟨⟨rfl, ?_, rfl⟩, ?_⟩⟩
    · rw [handlerEvents_append, htr]; rfl
    · rintro ⟨hs, -, -⟩
      exact Bool.noConfusion hs

/-- Concrete command for the C1 witness: one passing check, a failing
entry point, and an error handler configured. -/
def wcmdC1 : Command Nat Nat String :=
  ((Command.new entryErr).set_checks [checkTrue]).set_error_handler wHandler

/-- Witness for C1 at a concrete command. -/
theorem execute_entry_err_exactly_one_consumer_witness :
    (wcmdC1.execute wctx).1.state = .CommandErrored ∧
    Xor'
      (wcmdC1.error_handler.isSome = true ∧
        handlerEvents (wcmdC1.execute wctx).2 = ["db-timeout"] ∧
        (wcmdC1.execute wctx).1.output = .TakenByErrorHandlerHook)
      (wcmdC1.error_handler = none ∧
        handlerEvents (wcmdC1.execute wctx).2 = [] ∧
        (wcmdC1.execute wctx).1.output = .Present (.err "db-timeout")) :=
  execute_entry_err_exactly_one_consumer wcmdC1 wctx "db-timeout" rfl rfl

/-- C2: if `run_checks` yields `Err(why)`, then `execute` returns
`state = CheckErrored` and never invokes the entry point; if an error
handler is configured it is invoked exactly once with the Context and
`why` and `output = TakenByErrorHandlerHook` (its return value, of type
`Unit` here, is discarded); if no handler is configured the handler is
never invoked and `output = Present(Err(why))`. -/
theorem execute_check_err_dispatch (cmd : Command D T E)
    (ctx : SlashContext D) (why : E)
    (hc : (cmd.run_checks ctx).1 = .err why) :
    (cmd.execute ctx).1.state = .CheckErrored ∧
    entryCount (cmd.execute ctx).2 = 0 ∧
    (cmd.error_handler.isSome = true →
      handlerEvents (cmd.execute ctx).2 = [why] ∧
      (cmd.execute ctx).1.output = .TakenByErrorHandlerHook) ∧
    (cmd.error_handler = none →
      handlerEvents (cmd.execute ctx).2 = [] ∧
      (cmd.execute ctx).1.output = .Present (.err why)) := by
  rcases hrc : cmd.run_checks ctx with ⟨r, tr⟩
  rw [hrc] at hc
  dsimp at hc
  subst hc
  have htr : handlerEvents tr = [] := by
    have h0 := run_checks_handlerEvents cmd ctx
    rw [hrc] at h0; exact h0
  have hec : entryCount tr = 0 := by
    have h0 := run_checks_entryCount cmd ctx
    rw [hrc] at h0; exact h0
  cases hh : cmd.error_handler with
  | some hook =>
    rw [execute_of_checks_err_some cmd ctx why tr hook hrc hh]
    refine ⟨rfl, ?_, fun _ => ⟨?_, rfl⟩, fun hn => ?_⟩
    · rw [entryCount_append, hec]; rfl
    · rw [handlerEvents_append, htr]; rfl
    · exact Option.noConfusion hn
  | none =>
    rw [execute_of_checks_err_none cmd ctx why tr hrc hh]
    exact ⟨rfl, hec, fun hs => Bool.noConfusion hs, fun _ => ⟨htr, rfl⟩⟩

/-- Concrete command for the C2 witness: a hard-failing check and no
error handler. -/
def wcmdC2 : Command Nat Nat String :=
  (Command.new entryOk).set_checks [checkErr]

/-- Witness for C2 at a concrete command. -/
theorem execute_check_err_dispatch_witness :
    (wcmdC2.execute wctx).1.state = .CheckErrored ∧
    entryCount (wcmdC2.execute wctx).2 = 0 ∧
    handlerEvents (wcmdC2.execute wctx).2 = [] ∧
    (wcmdC2.execute wctx).1.output = .Present (.err "rate-limited") :=
  have h := execute_check_err_dispatch wcmdC2 wctx "rate-limited" rfl
  ⟨h.1, h.2.1, (h.2.2.2 rfl).1, (h.2.2.2 rfl).2⟩

/-- C3: if every check returns `Ok(true)` and the entry point returns
`Ok(value)`, then `execute` returns `state = CommandFinished` and
`output = Present(Ok(value))`, and the error handler is never invoked,
regardless of whether an error handler is configured. -/
theorem execute_entry_ok_finished (cmd : Command D T E)
    (ctx : SlashContext D) (v : T)
    (hc : (cmd.run_checks ctx).1 = .ok true)
    (he : cmd.entry_point ctx = .ok v) :
    (cmd.execute ctx).1.state = .CommandFinished ∧
    (cmd.execute ctx).1.output = .Present (.ok v) ∧
    handlerEvents (cmd.execute ctx).2 = [] := by
  rcases hrc : cmd.run_checks ctx with ⟨r, tr⟩
  rw [hrc] at hc
  dsimp at hc
  subst hc
  have htr : handlerEvents tr = [] := by
    have h0 := run_checks_handlerEvents cmd ctx
    rw [hrc] at h0; exact h0
  rw [execute_of_checks_true_ok cmd ctx v tr hrc he]
  exact ⟨rfl, rfl, by rw [handlerEvents_append, htr]; rfl⟩

/-- Concrete command for the C3 witness: one passing check, a succeeding
entry point, and an error handler configured (which must stay silent). -/
def wcmdC3 : Command Nat Nat String :=
  ((Command.new entryOk).set_checks [checkTrue]).set_error_handler wHandler

/-- Witness for C3 at a concrete command. -/
theorem execute_entry_ok_finished_witness :
    (wcmdC3.execute wctx).1.state = .CommandFinished ∧
    (wcmdC3.execute wctx).1.output = .Present (.ok 42) ∧
    handlerEvents (wcmdC3.execute wctx).2 = [] :=
  execute_entry_ok_finished wcmdC3 wctx 42 rfl rfl

/-- C4: if `run_checks` yields `Ok(false)`, then `execute` returns
`state = CheckFailed` and `output = NotExecuted`, the entry point is never
invoked, and the error handler is never invoked. -/
theorem execute_check_false_not_executed (cmd : Command D T E)
    (ctx : SlashContext D)
    (hc : (cmd.run_checks ctx).1 = .ok false) :
    (cmd.execute ctx).1.state = .CheckFailed ∧
    (cmd.execute ctx).1.output = .NotExecuted ∧
    entryCount (cmd.execute ctx).2 = 0 ∧
    handlerEvents (cmd.execute ctx).2 = [] := by
  rcases hrc : cmd.run_checks ctx with ⟨r, tr⟩
  rw [hrc] at hc
  dsimp at hc
  subst hc
  have htr : handlerEvents tr = [] := by
    have h0 := run_checks_handlerEvents cmd ctx
    rw [hrc] at h0; exact h0
  have hec : entryCount tr = 0 := by
    have h0 := run_checks_entryCount cmd ctx
    rw [hrc] at h0; exact h0
  rw [execute_of_checks_false cmd ctx tr hrc]
  exact ⟨rfl, rfl, hec, htr⟩

/-- Concrete command for the C4 witness: one soft-failing check. -/
def wcmdC4 : Command Nat Nat String :=
  ((Command.new entryOk).set_checks [checkFalse]).set_error_handler wHandler

/-- Witness for C4 at a concrete command. -/
theorem execute_check_false_not_executed_witness :
    (wcmdC4.execute wctx).1.state = .CheckFailed ∧
    (wcmdC4.execute wctx).1.output = .NotExecuted ∧
    entryCount (wcmdC4.execute wctx).2 = 0 ∧
    handlerEvents (wcmdC4.execute wctx).2 = [] :=
  execute_check_false_not_executed wcmdC4 wctx rfl

/-! ### Sequencing of `run_checks` -/

theorem runChecksFrom_first_err (ctx : SlashContext D)
    (pre : List (CheckHook D E)) (c : CheckHook D E)
    (post : List (CheckHook D E)) (e : E) (k : Nat)
    (hpre : ∀ c' ∈ pre, c'.hook ctx = .ok true)
    (hc : c.hook ctx = .err e) :
    runChecksFrom ctx (pre ++ c :: post) k =
      (.err e, (List.range' k (pre.length + 1)).map .checkInvoked) := by
  induction pre generalizing k with
  | nil =>
    simp only [List.nil_append, runChecksFrom, hc, List.range'_succ,
      List.range', List.map_cons, List.map_nil, List.length_nil]
  | cons c0 rest ih =>
    have h0 : c0.hook ctx = .ok true := hpre c0 (List.mem_cons_self c0 rest)
    have hrest : ∀ c' ∈ rest, c'.hook ctx = .ok true :=
      fun c' hm => hpre c' (List.mem_cons_of_mem c0 hm)
    simp only [List.cons_append, runChecksFrom, List.append_eq, h0,
      ih (k + 1) hrest, List.length_cons, List.range'_succ, List.map_cons]

theorem runChecksFrom_first_false (ctx : SlashContext D)
    (pre : List (CheckHook D E)) (c : CheckHook D E)
    (post : List (CheckHook D E)) (k : Nat)
    (hpre : ∀ c' ∈ pre, c'.hook ctx = .ok true)
    (hc : c.hook ctx = .ok false) :
    runChecksFrom ctx (pre ++ c :: post) k =
      (.ok false, (List.range' k (pre.length + 1)).map .checkInvoked) := by
  induction pre generalizing k with
  | nil =>
    simp only [List.nil_append, runChecksFrom, hc, List.range'_succ,
      List.range', List.map_cons, List.map_nil, List.length_nil]
  | cons c0 rest ih =>
    have h0 : c0.hook ctx = .ok true := hpre c0 (List.mem_cons_self c0 rest)
    have hrest : ∀ c' ∈ rest, c'.hook ctx = .ok true :=
      fun c' hm => hpre c' (List.mem_cons_of_mem c0 hm)
    simp only [List.cons_append, runChecksFrom, List.append_eq, h0,
      ih (k + 1) hrest, List.length_cons, List.range'_succ, List.map_cons]

theorem runChecksFrom_all_true (ctx : SlashContext D)
    (cs : List (CheckHook D E)) (k : Nat)
    (hall : ∀ c' ∈ cs, c'.hook ctx = .ok true) :
    runChecksFrom ctx cs k =
      (.ok true, (List.range' k cs.length).map .checkInvoked) := by
  induction cs generalizing k with
  | nil => simp [runChecksFrom, List.range']
  | cons c0 rest ih =>
    have h0 : c0.hook ctx = .ok true := hall c0 (List.mem_cons_self c0 rest)
    have hrest : ∀ c' ∈ rest, c'.hook ctx = .ok true :=
      fun c' hm => hall c' (List.mem_cons_of_mem c0 hm)
    simp only [runChecksFrom, h0, ih (k + 1) hrest,
      List.length_cons, List.range'_succ, List.map_cons]

/-- C5: `run_checks` evaluates the checks sequentially in declaration
order with short-circuiting.  Writing the check list as
`pre ++ c :: post` with every check of `pre` passing (so that `c` is the
first check, at 0-based index `pre.length`, to yield `Err(e)` resp.
`Ok(false)`), the result is that value and the trace is exactly the checks
`0 .. pre.length` in order — checks after the failing one are never
invoked.  If all checks (including the empty list) yield `Ok(true)`, the
result is `Ok(true)` and every check was invoked once, in order. -/
theorem run_checks_sequential_short_circuit (cmd : Command D T E)
    (ctx : SlashContext D) :
    (∀ pre c post e, cmd.checks = pre ++ c :: post →
      (∀ c' ∈ pre, c'.hook ctx = .ok true) →
      c.hook ctx = .err e →
      cmd.run_checks ctx =
        (.err e, (List.range (pre.length + 1)).map .checkInvoked)) ∧
    (∀ pre c post, cmd.checks = pre ++ c :: post →
      (∀ c' ∈ pre, c'.hook ctx = .ok true) →
      c.hook ctx = .ok false →
      cmd.run_checks ctx =
        (.ok false, (List.range (pre.length + 1)).map .checkInvoked)) ∧
    ((∀ c' ∈ cmd.checks, c'.hook ctx = .ok true) →
      cmd.run_checks ctx =
        (.ok true, (List.range cmd.checks.length).map .checkInvoked)) := by
  refine ⟨fun pre c post e hsplit hpre hc => ?_,
    fun pre c post hsplit hpre hc => ?_, fun hall => ?_⟩
  · rw [Command.run_checks, hsplit, runChecksFrom_first_err ctx pre c post e 0 hpre hc,
      List.range_eq_range']
  · rw [Command.run_checks, hsplit, runChecksFrom_first_false ctx pre c post 0 hpre hc,
      List.range_eq_range']
  · rw [Command.run_checks, runChecksFrom_all_true ctx cmd.checks 0 hall,
      List.range_eq_range']

/-- Concrete command for the C5 witness: a passing check, then a
hard-failing check, then a soft-failing check that must never run. -/
def wcmdC5 : Command Nat Nat String :=
  (Command.new entryOk).set_checks [checkTrue, checkErr, checkFalse]

/-- Witness for C5 at a concrete command: the hard failure at index 1
short-circuits, so only checks 0 and 1 are invoked. -/
theorem run_checks_sequential_short_circuit_witness :
    wcmdC5.run_checks wctx =
      (.err "rate-limited", [.checkInvoked 0, .checkInvoked 1]) :=
  (run_checks_sequential_short_circuit wcmdC5 wctx).1
    [checkTrue] checkErr [checkFalse] "rate-limited" rfl
    (fun c' hm => by rw [List.eq_of_mem_singleton hm]; rfl) rfl

/-! ### Consumption invariant, entry-point count, reachable states -/

/-- Concrete command for the C6 counterexample: a single soft-failing
check, so the execution produces no value at all. -/
def wcmdC6 : Command Nat Nat String :=
  (Command.new entryOk).set_checks [checkFalse]

/-- Counterexample to C6 as stated: on a soft check failure the error
handler is never invoked (so "no error handler consumed the value"
holds), yet `output = NotExecuted`, not `Present(_)`; the literal
biconditional fails because no value was produced to be consumed. -/
theorem execute_present_iff_counterexample :
    ¬ (((∃ r, (wcmdC6.execute wctx).1.output = .Present r) ↔
        handlerEvents (wcmdC6.execute wctx).2 = []) ∧
       ((wcmdC6.execute wctx).1.state = .CommandFinished ↔
        ∃ v, (wcmdC6.execute wctx).1.output = .Present (.ok v))) := by
  have hx : wcmdC6.execute wctx =
      ({ state := .CheckFailed, output := .NotExecuted }, [.checkInvoked 0]) := rfl
  rintro ⟨h1, -⟩
  obtain ⟨r, hr⟩ := h1.mpr (by rw [hx]; rfl)
  rw [hx] at hr
  exact OutputLocation.noConfusion hr

/-- C6 amended: `output = Present(_)` if and only if the execution
produced a `Result` value (the checks did not soft-fail) and no error
handler consumed it; and `state = CommandFinished` if and only if
`output = Present(Ok(_))`. -/
theorem execute_output_consumption (cmd : Command D T E) (ctx : SlashContext D) :
    ((∃ r, (cmd.execute ctx).1.output = .Present r) ↔
      ((cmd.producedValue ctx).isSome = true ∧
        handlerEvents (cmd.execute ctx).2 = [])) ∧
    ((cmd.execute ctx).1.state = .CommandFinished ↔
      ∃ v, (cmd.execute ctx).1.output = .Present (.ok v)) := by
  rcases hrc : cmd.run_checks ctx with ⟨r, tr⟩
  have htr : handlerEvents tr = [] := by
    have h0 := run_checks_handlerEvents cmd ctx
    rw [hrc] at h0; exact h0
  rcases r with b | why
  · cases b
    · rw [execute_of_checks_false cmd ctx tr hrc]
      have hpv : cmd.producedValue ctx = none := by
        simp [Command.producedValue, hrc]
      constructor
      · constructor
        · rintro ⟨r, hr⟩; exact OutputLocation.noConfusion hr
        · rintro ⟨hs, -⟩; rw [hpv] at hs; exact Bool.noConfusion hs
      · constructor
        · intro hs; exact ExecutionState.noConfusion hs
        · rintro ⟨v, hv⟩; exact OutputLocation.noConfusion hv
    · rcases he : cmd.entry_point ctx with v | why
      · rw [execute_of_checks_true_ok cmd ctx v tr hrc he]
        have hpv : cmd.producedValue ctx = some (.ok v) := by
          simp [Command.producedValue, hrc, he]
        have hh2 : handlerEvents (tr ++ [Event.entryInvoked]) = [] := by
          rw [handlerEvents_append, htr]; rfl
        constructor
        · exact ⟨fun _ => ⟨by rw [hpv]; rfl, hh2⟩, fun _ => ⟨.ok v, rfl⟩⟩
        · exact ⟨fun _ => ⟨v, rfl⟩, fun _ => rfl⟩
      · cases hh : cmd.error_handler with
        | some hook =>
          rw [execute_of_checks_true_err_some cmd ctx why tr hook hrc he hh]
          have hhe : handlerEvents
              (tr ++ [Event.entryInvoked, Event.handlerInvoked why]) = [why] := by
            rw [handlerEvents_append, htr]; rfl
          constructor
          · constructor
            · rintro ⟨r, hr⟩; exact OutputLocation.noConfusion hr
            · rintro ⟨-, hs⟩; rw [hhe] at hs; exact List.noConfusion hs
          · constructor
            · intro hs; exact ExecutionState.noConfusion hs
            · rintro ⟨v, hv⟩; exact OutputLocation.noConfusion hv
        | none =>
          rw [execute_of_checks_true_err_none cmd ctx why tr hrc he hh]
          have hpv : cmd.producedValue ctx = some (.err why) := by
            simp [Command.producedValue, hrc, he]
          have hh2 : handlerEvents (tr ++ [Event.entryInvoked]) = [] := by
            rw [handlerEvents_append, htr]; rfl
          constructor
          · exact ⟨fun _ => ⟨by rw [hpv]; rfl, hh2⟩, fun _ => ⟨.err why, rfl⟩⟩
          · constructor
            · intro hs; exact ExecutionState.noConfusion hs
            · rintro ⟨v, hv⟩
              injection hv with h
              exact RResult.noConfusion h
  · have hpv : cmd.producedValue ctx = some (.err why) := by
      simp [Command.producedValue, hrc]
    cases hh : cmd.error_handler with
    | some hook =>
      rw [execute_of_checks_err_some cmd ctx why tr hook hrc hh]
      have hhe : handlerEvents (tr ++ [Event.handlerInvoked why]) = [why] := by
        rw [handlerEvents_append, htr]; rfl
      constructor
      · constructor
        · rintro ⟨r, hr⟩; exact OutputLocation.noConfusion hr
        · rintro ⟨-, hs⟩; rw [hhe] at hs; exact List.noConfusion hs
      · constructor
        · intro hs; exact ExecutionState.noConfusion hs
        · rintro ⟨v, hv⟩; exact OutputLocation.noConfusion hv
    | none =>
      rw [execute_of_checks_err_none cmd ctx why tr hrc hh]
      constructor
      · exact ⟨fun _ => ⟨by rw [hpv]; rfl, htr⟩, fun _ => ⟨.err why, rfl⟩⟩
      · constructor
        · intro hs; exact ExecutionState.noConfusion hs
        · rintro ⟨v, hv⟩
          injection hv with h
          exact RResult.noConfusion h

/-- The entry point is invoked exactly once when the checks pass and
never otherwise. -/
theorem execute_entryCount_cases (cmd : Command D T E) (ctx : SlashContext D) :
    ((cmd.run_checks ctx).1 = .ok true ∧ entryCount (cmd.execute ctx).2 = 1) ∨
    ((cmd.run_checks ctx).1 ≠ .ok true ∧ entryCount (cmd.execute ctx).2 = 0) := by
  rcases hrc : cmd.run_checks ctx with ⟨r, tr⟩
  have hec : entryCount tr = 0 := by
    have h0 := run_checks_entryCount cmd ctx
    rw [hrc] at h0; exact h0
  rcases r with b | why
  · cases b
    · refine Or.inr ⟨by simp [hrc], ?_⟩
      rw [execute_of_checks_false cmd ctx tr hrc]
      exact hec
    · refine Or.inl ⟨rfl, ?_⟩
      rcases he : cmd.entry_point ctx with v | why
      · rw [execute_of_checks_true_ok cmd ctx v tr hrc he,
          entryCount_append, hec]
        rfl
      · cases hh : cmd.error_handler with
        | some hook =>
          rw [execute_of_checks_true_err_some cmd ctx why tr hook hrc he hh,
            entryCount_append, hec]
          rfl
        | none =>
          rw [execute_of_checks_true_err_none cmd ctx why tr hrc he hh,
            entryCount_append, hec]
          rfl
  · refine Or.inr ⟨by simp [hrc], ?_⟩
    cases hh : cmd.error_handler with
    | some hook =>
      rw [execute_of_checks_err_some cmd ctx why tr hook hrc hh,
        entryCount_append, hec]
      rfl
    | none =>
      rw [execute_of_checks_err_none cmd ctx why tr hrc hh]
      exact hec

/-- C7: a single call to `execute` invokes the entry point at most once
under all branches; and for every Command Definition whose check list is
empty, `execute` invokes the entry point exactly once. -/
theorem execute_entry_at_most_once (cmd : Command D T E) (ctx : SlashContext D) :
    entryCount (cmd.execute ctx).2 ≤ 1 ∧
    (cmd.checks = [] → entryCount (cmd.execute ctx).2 = 1) := by
  rcases execute_entryCount_cases cmd ctx with ⟨-, h1⟩ | ⟨hne, h0⟩
  · exact ⟨le_of_eq h1, fun _ => h1⟩
  · refine ⟨by rw [h0]; exact Nat.zero_le 1, fun hchk => ?_⟩
    exfalso
    apply hne
    rw [Command.run_checks, hchk]
    rfl

/-- Witness for C7: a command with no checks invokes its entry point
exactly once. -/
theorem execute_entry_at_most_once_witness :
    entryCount ((Command.new entryOk).execute wctx).2 = 1 :=
  (execute_entry_at_most_once (Command.new entryOk) wctx).2 rfl

/-- C8: `execute` never returns `state = BeforeHookFailed` (the variant
exists in the state enumeration but the core's own algorithm never
produces it) and never returns `output = TakenByAfterHook`. -/
theorem execute_never_reserved (cmd : Command D T E) (ctx : SlashContext D) :
    (cmd.execute ctx).1.state ≠ .BeforeHookFailed ∧
    (cmd.execute ctx).1.output ≠ .TakenByAfterHook := by
  rcases hrc : cmd.run_checks ctx with ⟨r, tr⟩
  rcases r with b | why
  · cases b
    · rw [execute_of_checks_false cmd ctx tr hrc]
      exact ⟨fun h => ExecutionState.noConfusion h,
        fun h => OutputLocation.noConfusion h⟩
    · rcases he : cmd.entry_point ctx with v | why
      · rw [execute_of_checks_true_ok cmd ctx v tr hrc he]
        exact ⟨fun h => ExecutionState.noConfusion h,
          fun h => OutputLocation.noConfusion h⟩
      · cases hh : cmd.error_handler with
        | some hook =>
          rw [execute_of_checks_true_err_some cmd ctx why tr hook hrc he hh]
          exact ⟨fun h => ExecutionState.noConfusion h,
            fun h => OutputLocation.noConfusion h⟩
        | none =>
          rw [execute_of_checks_true_err_none cmd ctx why tr hrc he hh]
          exact ⟨fun h => ExecutionState.noConfusion h,
            fun h => OutputLocation.noConfusion h⟩
  · cases hh : cmd.error_handler with
    | some hook =>
      rw [execute_of_checks_err_some cmd ctx why tr hook hrc hh]
      exact ⟨fun h => ExecutionState.noConfusion h,
        fun h => OutputLocation.noConfusion h⟩
    | none =>
      rw [execute_of_checks_err_none cmd ctx why tr hrc hh]
      exact ⟨fun h => ExecutionState.noConfusion h,
        fun h => OutputLocation.noConfusion h⟩

/-- Witness for C8 at a concrete command. -/
theorem execute_never_reserved_witness :
    (wcmdC1.execute wctx).1.state ≠ .BeforeHookFailed ∧
    (wcmdC1.execute wctx).1.output ≠ .TakenByAfterHook :=
  execute_never_reserved wcmdC1 wctx

/-! ### Builder: name and description, frame conditions -/

/-- Counterexample to C9 as stated: `Command::new` initializes `name` and
`description` to `Default::default()`, the empty string, and no builder
operation validates non-emptiness, so a constructed Command Definition
with empty name and description exists. -/
theorem command_name_description_counterexample :
    ¬ ((Command.new entryOk).name ≠ "" ∧
       (Command.new entryOk).description ≠ "") := by
  rintro ⟨hn, -⟩
  exact hn rfl

/-- C9 amended: a Command Definition built by giving the builder non-empty
`name` and `description` strings has non-empty `name` and `description`
fields; the core itself never validates this (the freshly constructed
command has empty ones), so non-emptiness is an obligation on the external
registration collaborator that supplies the strings. -/
theorem command_built_name_description_nonempty
    (f : SlashContext D → RResult T E) (n d : String)
    (hn : n ≠ "") (hd : d ≠ "") :
    (((Command.new f).set_name n).set_description d).name ≠ "" ∧
    (((Command.new f).set_name n).set_description d).description ≠ "" :=
  ⟨hn, hd⟩

/-- Witness for the amended C9 at concrete builder inputs. -/
theorem command_built_name_description_nonempty_witness :
    (((Command.new entryOk).set_name "ping").set_description
        "responds with pong").name ≠ "" ∧
    (((Command.new entryOk).set_name "ping").set_description
        "responds with pong").description ≠ "" :=
  command_built_name_description_nonempty entryOk "ping" "responds with pong"
    (by decide) (by decide)

/-- C10: each builder operation modifies only its own field and leaves
every other field unchanged: `set_name`, `set_description` and
`set_required_permissions` set only their field, `add_argument` appends
one argument preserving insertion order, `set_checks` replaces the entire
previous check list, and `set_error_handler` stores at most one handler
with the last write winning. -/
theorem builder_frame_conditions (cmd : Command D T E) (n d : String)
    (a : CommandArgument D) (cs : List (CheckHook D E))
    (h h2 : ErrorHandlerHook D E) (p : Permissions) :
    ((cmd.set_name n).name = n ∧
      (cmd.set_name n).description = cmd.description ∧
      (cmd.set_name n).arguments = cmd.arguments ∧
      (cmd.set_name n).entry_point = cmd.entry_point ∧
      (cmd.set_name n).required_permissions = cmd.required_permissions ∧
      (cmd.set_name n).checks = cmd.checks ∧
      (cmd.set_name n).error_handler = cmd.error_handler) ∧
    ((cmd.set_description d).description = d ∧
      (cmd.set_description d).name = cmd.name ∧
      (cmd.set_description d).arguments = cmd.arguments ∧
      (cmd.set_description d).entry_point = cmd.entry_point ∧
      (cmd.set_description d).required_permissions = cmd.required_permissions ∧
      (cmd.set_description d).checks = cmd.checks ∧
      (cmd.set_description d).error_handler = cmd.error_handler) ∧
    ((cmd.add_argument a).arguments = cmd.arguments ++ [a] ∧
      (cmd.add_argument a).name = cmd.name ∧
      (cmd.add_argument a).description = cmd.description ∧
      (cmd.add_argument a).entry_point = cmd.entry_point ∧
      (cmd.add_argument a).required_permissions = cmd.required_permissions ∧
      (cmd.add_argument a).checks = cmd.checks ∧
      (cmd.add_argument a).error_handler = cmd.error_handler) ∧
    ((cmd.set_checks cs).checks = cs ∧
      (cmd.set_checks cs).name = cmd.name ∧
      (cmd.set_checks cs).description = cmd.description ∧
      (cmd.set_checks cs).arguments = cmd.arguments ∧
      (cmd.set_checks cs).entry_point = cmd.entry_point ∧
      (cmd.set_checks cs).required_permissions = cmd.required_permissions ∧
      (cmd.set_checks cs).error_handler = cmd.error_handler) ∧
    ((cmd.set_error_handler h).error_handler = some h ∧
      ((cmd.set_error_handler h).set_error_handler h2).error_handler = some h2 ∧
      (cmd.set_error_handler h).name = cmd.name ∧
      (cmd.set_error_handler h).description = cmd.description ∧
      (cmd.set_error_handler h).arguments = cmd.arguments ∧
      (cmd.set_error_handler h).entry_point = cmd.entry_point ∧
      (cmd.set_error_handler h).required_permissions = cmd.required_permissions ∧
      (cmd.set_error_handler h).checks = cmd.checks) ∧
    ((cmd.set_required_permissions p).required_permissions = some p ∧
      (cmd.set_required_permissions p).name = cmd.name ∧
      (cmd.set_required_permissions p).description = cmd.description ∧
      (cmd.set_required_permissions p).arguments = cmd.arguments ∧
      (cmd.set_required_permissions p).entry_point = cmd.entry_point ∧
      (cmd.set_required_permissions p).checks = cmd.checks ∧
      (cmd.set_required_permissions p).error_handler = cmd.error_handler) :=
  ⟨⟨rfl, rfl, rfl, rfl, rfl, rfl, rfl⟩,
    ⟨rfl, rfl, rfl, rfl, rfl, rfl, rfl⟩,
    ⟨rfl, rfl, rfl, rfl, rfl, rfl, rfl⟩,
    ⟨rfl, rfl, rfl, rfl, rfl, rfl, rfl⟩,
    ⟨rfl, rfl, rfl, rfl, rfl, rfl, rfl, rfl⟩,
    ⟨rfl, rfl, rfl, rfl, rfl, rfl, rfl⟩⟩

end Vesper
